import Mathlib

/-!
Verification development for the StackTics packing engine
(backend/app/optimizer/engine.py together with backend/app/models.py).

The engine works on Python floats; the embedding models them as exact
rationals.  Every definition below is translated from the source file it
names; deviations forced by the source itself (a missing attribute on the
Bed dataclass) are documented where they occur.
-/

namespace StackTics

/-- Fragility enum from models.py. -/
inductive Fragility
| robust
| normal
| fragile
deriving DecidableEq

/-- AccessFrequency enum from models.py. -/
inductive AccessFrequency
| rare
| sometimes
| often
deriving DecidableEq

/-- Priority enum from models.py. -/
inductive Priority
| must_fit
| optional
deriving DecidableEq

/-- Strategy enum from models.py. -/
inductive Strategy
| maximize_volume
| minimize_holes
deriving DecidableEq

/-- Axis labels used by Orientation (the strings "length", "width",
"height" in the Python source). -/
inductive Axis
| length
| width
| height
deriving DecidableEq

/-- Bed from models.py, extended with the corner_radius field.  The
dataclass in models.py declares only length, width, height and margin;
the engine (engine.py line 450) reads bed.corner_radius and the API layer
(routes.py line 46) passes corner_radius to the constructor, and the spec
(section 3) declares the attribute, so the field is modelled from the
spec here.  The missing field itself is the subject of claim C6; see
ModelsBed below for the dataclass exactly as models.py defines it. -/
structure Bed where
  length : ℚ
  width : ℚ
  height : ℚ
  margin : ℚ
  corner_radius : ℚ
deriving DecidableEq

/-- Bed exactly as the dataclass in models.py defines it: length, width,
height, margin, and no corner_radius field. -/
structure ModelsBed where
  length : ℚ
  width : ℚ
  height : ℚ
  margin : ℚ
deriving DecidableEq

/-- Attribute access bed.corner_radius on a models.Bed instance: the
dataclass defines no such field and no code ever assigns one, so the
access yields no value (Python raises AttributeError). -/
def ModelsBed.getCornerRadius (_ : ModelsBed) : Option ℚ := none

/-- Box from models.py.  max_supported_load is Optional in the dataclass
declaration; Box.make below models the __post_init__ defaulting. -/
structure Box where
  id : String
  name : String
  length : ℚ
  width : ℚ
  height : ℚ
  weight : ℚ
  fragility : Fragility
  access_frequency : AccessFrequency
  priority : Priority
  can_rotate_x : Bool
  can_rotate_y : Bool
  can_rotate_z : Bool
  max_supported_load : Option ℚ
deriving DecidableEq

/-- The fragility-based defaults dictionary in Box.__post_init__
(models.py lines 66-71). -/
def fragilityDefaultLoad : Fragility → ℚ
  | .robust => 50
  | .normal => 20
  | .fragile => 5

/-- Box construction as performed by the dataclass __init__ followed by
__post_init__ (models.py lines 64-72): a missing max_supported_load is
replaced by the fragility default, so the stored value is never None. -/
def Box.make (id name : String) (length width height weight : ℚ)
    (fragility : Fragility) (access_frequency : AccessFrequency)
    (priority : Priority) (can_rotate_x can_rotate_y can_rotate_z : Bool)
    (max_supported_load : Option ℚ) : Box :=
  { id := id, name := name, length := length, width := width,
    height := height, weight := weight, fragility := fragility,
    access_frequency := access_frequency, priority := priority,
    can_rotate_x := can_rotate_x, can_rotate_y := can_rotate_y,
    can_rotate_z := can_rotate_z,
    max_supported_load :=
      some (max_supported_load.getD (fragilityDefaultLoad fragility)) }

/-- Settings from models.py. -/
structure Settings where
  strategy : Strategy
  accessibility_preference : ℚ
  padding : ℚ
  margin : ℚ
deriving DecidableEq

/-- Orientation from models.py: which intrinsic dimension of the box is
aligned with each container axis. -/
structure Orientation where
  length_axis : Axis
  width_axis : Axis
  height_axis : Axis
deriving DecidableEq

/-- The default (identity) orientation, Orientation.default in models.py. -/
def Orientation.default : Orientation :=
  ⟨Axis.length, Axis.width, Axis.height⟩

/-- Placement from models.py. -/
structure Placement where
  box_id : String
  x : ℚ
  y : ℚ
  z : ℚ
  orientation : Orientation
deriving DecidableEq

/-- PlacedBox from engine.py: a box, its placement, and its dimensions
after rotation. -/
structure PlacedBox where
  box : Box
  placement : Placement
  placed_length : ℚ
  placed_width : ℚ
  placed_height : ℚ
deriving DecidableEq

def PlacedBox.x_end (p : PlacedBox) : ℚ := p.placement.x + p.placed_length

def PlacedBox.y_end (p : PlacedBox) : ℚ := p.placement.y + p.placed_width

def PlacedBox.z_end (p : PlacedBox) : ℚ := p.placement.z + p.placed_height

/-- FreeSpace from engine.py. -/
structure FreeSpace where
  x : ℚ
  y : ℚ
  z : ℚ
  length : ℚ
  width : ℚ
  height : ℚ
deriving DecidableEq

def FreeSpace.x_end (s : FreeSpace) : ℚ := s.x + s.length

def FreeSpace.y_end (s : FreeSpace) : ℚ := s.y + s.width

def FreeSpace.z_end (s : FreeSpace) : ℚ := s.z + s.height

/-- Corner labels from engine.py (the corner_type strings). -/
inductive CornerType
| bottom_left
| bottom_right
| top_left
| top_right
deriving DecidableEq

/-- Absolute value on ℚ, written out as the Python built-in abs computes
it; qabs_eq_abs below identifies it with the Mathlib absolute value. -/
def qabs (q : ℚ) : ℚ := if q < 0 then -q else q

/-- point_in_corner_exclusion from engine.py (lines 92-132).  The code
compares the Euclidean distance sqrt(dx*dx + dy*dy) against radius; after
the radius > 0 guard both sides are nonnegative, so the comparison is
embedded as the equivalent squared comparison to stay inside ℚ. -/
def point_in_corner_exclusion (px py corner_x corner_y radius : ℚ)
    (corner_type : CornerType) : Bool :=
  if radius ≤ 0 then false
  else
    let dx := px - corner_x
    let dy := py - corner_y
    let in_square : Bool :=
      match corner_type with
      | .bottom_left => decide (px < corner_x) && decide (py < corner_y)
      | .bottom_right => decide (px > corner_x) && decide (py < corner_y)
      | .top_left => decide (px < corner_x) && decide (py > corner_y)
      | .top_right => decide (px > corner_x) && decide (py > corner_y)
    in_square && decide (dx * dx + dy * dy > radius * radius)

/-- box_intersects_corner from engine.py (lines 135-192): checks the four
box corners and the four edge midpoints against the four corner arcs. -/
def box_intersects_corner (box_x box_y box_length box_width
    bed_length bed_width corner_radius total_margin : ℚ) : Bool :=
  if corner_radius ≤ 0 then false
  else
    let corners : List (ℚ × ℚ × CornerType) :=
      [(total_margin + corner_radius, total_margin + corner_radius, .bottom_left),
       (bed_length - total_margin - corner_radius, total_margin + corner_radius, .bottom_right),
       (total_margin + corner_radius, bed_width - total_margin - corner_radius, .top_left),
       (bed_length - total_margin - corner_radius, bed_width - total_margin - corner_radius, .top_right)]
    let check_points : List (ℚ × ℚ) :=
      [(box_x, box_y),
       (box_x + box_length, box_y),
       (box_x, box_y + box_width),
       (box_x + box_length, box_y + box_width),
       (box_x + box_length / 2, box_y),
       (box_x + box_length / 2, box_y + box_width),
       (box_x, box_y + box_width / 2),
       (box_x + box_length, box_y + box_width / 2)]
    check_points.any fun p =>
      corners.any fun c =>
        point_in_corner_exclusion p.1 p.2 c.1 c.2.1 corner_radius c.2.2

/-- Dimension lookup dims[axis] from get_box_orientations. -/
def Box.dim (b : Box) : Axis → ℚ
  | .length => b.length
  | .width => b.width
  | .height => b.height

/-- The list of the six label permutations, in the order engine.py lists
them (lines 204-211). -/
def dimension_permutations : List (Axis × Axis × Axis) :=
  [(.length, .width, .height),
   (.length, .height, .width),
   (.width, .length, .height),
   (.width, .height, .length),
   (.height, .length, .width),
   (.height, .width, .length)]

/-- The rotation-permission test of get_box_orientations (engine.py lines
221-235): the identity permutation is always allowed; otherwise the listed
flag conditions are conjoined.  The needs_x, needs_y, needs_z variables
computed at lines 215-217 are never used by the code and are omitted. -/
def orientation_allowed (b : Box) (la wa ha : Axis) : Bool :=
  if la = Axis.length ∧ wa = Axis.width ∧ ha = Axis.height then true
  else
    (if la ≠ Axis.length ∨ wa ≠ Axis.width then b.can_rotate_z else true) &&
    (if ha ≠ Axis.height then
      (if wa = Axis.height ∨ ha = Axis.width then b.can_rotate_x else true) &&
      (if la = Axis.height ∨ ha = Axis.length then b.can_rotate_y else true)
    else true)

/-- The duplicate test of get_box_orientations (lines 246-251): two placed
dimension triples coincide when they agree componentwise within 0.001. -/
def dims_coincide (a b : ℚ × ℚ × ℚ) : Bool :=
  decide (qabs (a.1 - b.1) < 1/1000) &&
  decide (qabs (a.2.1 - b.2.1) < 1/1000) &&
  decide (qabs (a.2.2 - b.2.2) < 1/1000)

/-- One accepted orientation tuple (length, width, height, orientation)
of get_box_orientations. -/
structure OrientedDims where
  length : ℚ
  width : ℚ
  height : ℚ
  orientation : Orientation
deriving DecidableEq

/-- One iteration of the permutation loop in get_box_orientations. -/
def orientationStep (b : Box) (acc : List OrientedDims)
    (p : Axis × Axis × Axis) : List OrientedDims :=
  if orientation_allowed b p.1 p.2.1 p.2.2 then
    let d : ℚ × ℚ × ℚ := (b.dim p.1, b.dim p.2.1, b.dim p.2.2)
    if acc.any fun o => dims_coincide d (o.length, o.width, o.height) then acc
    else acc ++ [⟨d.1, d.2.1, d.2.2, ⟨p.1, p.2.1, p.2.2⟩⟩]
  else acc

/-- get_box_orientations from engine.py (lines 195-254). -/
def get_box_orientations (b : Box) : List OrientedDims :=
  dimension_permutations.foldl (orientationStep b) []

/-- calculate_box_score from engine.py (lines 257-301). -/
def calculate_box_score (b : Box) (accessibility_preference : ℚ) : ℚ :=
  (if b.priority = Priority.must_fit then 0 else 1000)
  - b.weight * 10
  + (match b.fragility with
     | .robust => 0
     | .normal => 50
     | .fragile => 100)
  + (match b.access_frequency with
     | .often => 200
     | .sometimes => 100
     | .rare => 0) * accessibility_preference
  - b.length * b.width * b.height * (1/100)

/-- get_support_at_position from engine.py (lines 304-346).  Returns the
support fraction (support_ratio in the source) together with the list of
supporting placed boxes. -/
def get_support_at_position (x y z length width : ℚ)
    (placed_boxes : List PlacedBox) (bed_floor_z padding : ℚ) :
    ℚ × List PlacedBox :=
  if z ≤ bed_floor_z + 1/1000 then (1, [])
  else if length * width ≤ 0 then (0, [])
  else
    let acc := placed_boxes.foldl
      (fun (a : ℚ × List PlacedBox) placed =>
        if qabs (placed.z_end + padding - z) > 1/10 then a
        else
          let oxs := max x placed.placement.x
          let oxe := min (x + length) placed.x_end
          let oys := max y placed.placement.y
          let oye := min (y + width) placed.y_end
          if oxe > oxs ∧ oye > oys then
            (a.1 + (oxe - oxs) * (oye - oys), a.2 ++ [placed])
          else a)
      (0, [])
    (min (acc.1 / (length * width)) 1, acc.2)

/-- The rest-on test inside the load loop of check_load_constraint
(engine.py lines 367-376): the guard placed.z > support.z_end - 0.1
followed by a get_support_at_position call against [support] with
bed_floor_z = support.placement.z and, because the call at line 370-374
passes no padding argument, the default padding 0. -/
def restsOnPerCode (support placed : PlacedBox) : Bool :=
  decide (placed.placement.z > support.z_end - 1/10) &&
  !(get_support_at_position placed.placement.x placed.placement.y
      placed.placement.z placed.placed_length placed.placed_width
      [support] support.placement.z 0).2.isEmpty

/-- Weight lookup boxes_by_id[placed.box.id].weight at engine.py line 376.
The dictionary indexing is total in every engine-reachable state (the
dictionary is built from the very boxes that get placed); a missing key is
mapped to weight 0 here. -/
def boxWeightById (byId : String → Option Box) (placed : PlacedBox) : ℚ :=
  ((byId placed.box.id).map Box.weight).getD 0

/-- The current_load accumulation of check_load_constraint (engine.py
lines 365-376). -/
def currentLoadOn (byId : String → Option Box) (support : PlacedBox)
    (placed_boxes : List PlacedBox) : ℚ :=
  placed_boxes.foldl
    (fun acc placed =>
      if restsOnPerCode support placed then acc + boxWeightById byId placed
      else acc)
    0

/-- check_load_constraint from engine.py (lines 349-382).  A supporter
whose id is absent from the dictionary, or whose max_supported_load is
None, is skipped (the continue at line 363); Option.all on the flattened
lookup returns true on both None cases and otherwise applies the limit
test of line 379. -/
def check_load_constraint (box : Box) (supporting_boxes : List PlacedBox)
    (placed_boxes : List PlacedBox) (byId : String → Option Box) : Bool :=
  supporting_boxes.all fun support =>
    ((byId support.box.id).bind fun support_box =>
        support_box.max_supported_load).all
      fun limit =>
        decide (currentLoadOn byId support placed_boxes + box.weight ≤ limit)

/-- check_fragility_constraint from engine.py (lines 385-397). -/
def check_fragility_constraint (box : Box)
    (supporting_boxes : List PlacedBox) : Bool :=
  supporting_boxes.all fun support =>
    !(decide (support.box.fragility = Fragility.fragile) && decide (box.weight > 5)) &&
    !(decide (support.box.fragility = Fragility.normal) && decide (box.weight > 15))

/-- The candidate list of find_placement_position (engine.py lines
420-432): the origin of the usable space, then for each placed box the
right, behind and on-top corner points. -/
def candidatesFor (usable_space : FreeSpace) (padding : ℚ)
    (placed_boxes : List PlacedBox) : List (ℚ × ℚ × ℚ) :=
  (usable_space.x, usable_space.y, usable_space.z) ::
    placed_boxes.foldr
      (fun placed rest =>
        (placed.x_end + padding, placed.placement.y, placed.placement.z) ::
        (placed.placement.x, placed.y_end + padding, placed.placement.z) ::
        (placed.placement.x, placed.placement.y, placed.z_end + padding) :: rest)
      []

/-- The in-bounds filter of find_placement_position (lines 438-444). -/
def boundsOk (usable_space : FreeSpace) (length width height : ℚ)
    (c : ℚ × ℚ × ℚ) : Bool :=
  !decide (c.1 < usable_space.x) &&
  !decide (c.1 + length > usable_space.x_end) &&
  !decide (c.2.1 < usable_space.y) &&
  !decide (c.2.1 + width > usable_space.y_end) &&
  !decide (c.2.2 < usable_space.z) &&
  !decide (c.2.2 + height > usable_space.z_end)

/-- The separation test against one placed box inside the collision check
of find_placement_position (lines 456-465). -/
def sepFrom (padding length width height : ℚ) (c : ℚ × ℚ × ℚ)
    (placed : PlacedBox) : Bool :=
  decide (c.1 + length + padding ≤ placed.placement.x) ||
  decide (placed.x_end + padding ≤ c.1) ||
  decide (c.2.1 + width + padding ≤ placed.placement.y) ||
  decide (placed.y_end + padding ≤ c.2.1) ||
  decide (c.2.2 + height + padding ≤ placed.placement.z) ||
  decide (placed.z_end + padding ≤ c.2.2)

/-- The full collision filter (lines 454-470): the candidate passes when
it is separated from every placed box. -/
def collisionFree (padding length width height : ℚ) (c : ℚ × ℚ × ℚ)
    (placed_boxes : List PlacedBox) : Bool :=
  placed_boxes.all (sepFrom padding length width height c)

/-- The supporting-box list computed for a candidate (line 473-475). -/
def supportersAt (usable_space : FreeSpace) (padding : ℚ)
    (placed_boxes : List PlacedBox) (od : OrientedDims)
    (c : ℚ × ℚ × ℚ) : List PlacedBox :=
  (get_support_at_position c.1 c.2.1 c.2.2 od.length od.width placed_boxes
    usable_space.z padding).2

/-- The stability filter (lines 477-479): reject when the candidate is
more than 0.1 above the floor and the support fraction is below 0.5. -/
def supportOk (usable_space : FreeSpace) (padding : ℚ)
    (placed_boxes : List PlacedBox) (od : OrientedDims)
    (c : ℚ × ℚ × ℚ) : Bool :=
  !(decide (c.2.2 > usable_space.z + 1/10) &&
    decide ((get_support_at_position c.1 c.2.1 c.2.2 od.length od.width
      placed_boxes usable_space.z padding).1 < 1/2))

/-- The whole feasibility filter of find_placement_position (lines
437-485), in the order the code applies the tests. -/
def candidateValid (box : Box) (od : OrientedDims)
    (placed_boxes : List PlacedBox) (byId : String → Option Box)
    (usable_space : FreeSpace) (padding : ℚ) (bed : Bed)
    (total_margin : ℚ) (c : ℚ × ℚ × ℚ) : Bool :=
  boundsOk usable_space od.length od.width od.height c &&
  !box_intersects_corner c.1 c.2.1 od.length od.width bed.length bed.width
    bed.corner_radius total_margin &&
  collisionFree padding od.length od.width od.height c placed_boxes &&
  supportOk usable_space padding placed_boxes od c &&
  check_load_constraint box (supportersAt usable_space padding placed_boxes od c)
    placed_boxes byId &&
  check_fragility_constraint box (supportersAt usable_space padding placed_boxes od c)

/-- The position score of find_placement_position (lines 487-501). -/
def positionScore (strategy : Strategy) (padding : ℚ)
    (placed_boxes : List PlacedBox) (c : ℚ × ℚ × ℚ) : ℚ :=
  match strategy with
  | .maximize_volume => c.1 + c.2.1 * (1/10) + c.2.2 * (1/100)
  | .minimize_holes =>
    let adjacency := placed_boxes.foldl
      (fun a placed =>
        a + (if qabs (c.1 - placed.x_end - padding) < 1/10 then -10 else 0)
          + (if qabs (c.2.1 - placed.y_end - padding) < 1/10 then -10 else 0)
          + (if qabs (c.2.2 - placed.z_end) < 1/10 then -5 else 0))
      0
    c.1 + c.2.1 * (1/10) + c.2.2 * (1/100) + adjacency

/-- The final selection of find_placement_position (lines 505-511): the
code stable-sorts the scored valid positions and returns the head, which
is the earliest position attaining the minimal score; the fold below
computes exactly that element. -/
def selectBest : List ((ℚ × ℚ × ℚ) × ℚ) → Option (ℚ × ℚ × ℚ)
  | [] => none
  | p :: rest =>
    some (rest.foldl (fun best c => if c.2 < best.2 then c else best) p).1

/-- find_placement_position from engine.py (lines 400-511). -/
def find_placement_position (box : Box) (od : OrientedDims)
    (placed_boxes : List PlacedBox) (byId : String → Option Box)
    (usable_space : FreeSpace) (padding : ℚ) (strategy : Strategy)
    (bed : Bed) (total_margin : ℚ) : Option (ℚ × ℚ × ℚ) :=
  let cands := candidatesFor usable_space padding placed_boxes
  let valids := cands.filter
    (candidateValid box od placed_boxes byId usable_space padding bed total_margin)
  selectBest (valids.map fun c => (c, positionScore strategy padding placed_boxes c))

/-- The per-box best (orientation, position) record tracked by the loop at
engine.py lines 567-589. -/
structure BestChoice where
  x : ℚ
  y : ℚ
  z : ℚ
  od : OrientedDims
  score : ℚ
deriving DecidableEq

/-- One iteration of the orientation loop of optimize_packing (lines
570-589): skip orientations that do not fit the usable space, query
find_placement_position, and keep the strictly best outer score
z * 1000 + x + y * 0.1 (ties keep the earlier orientation, matching the
strict less-than against the running best, which starts at infinity). -/
def bestStep (box : Box) (placed_boxes : List PlacedBox)
    (byId : String → Option Box) (usable_space : FreeSpace) (padding : ℚ)
    (strategy : Strategy) (bed : Bed) (total_margin : ℚ)
    (best : Option BestChoice) (od : OrientedDims) : Option BestChoice :=
  if od.length > usable_space.length ∨ od.width > usable_space.width ∨
      od.height > usable_space.height then best
  else
    match find_placement_position box od placed_boxes byId usable_space
      padding strategy bed total_margin with
    | none => best
    | some c =>
      let s := c.2.2 * 1000 + c.1 + c.2.1 * (1/10)
      match best with
      | none => some ⟨c.1, c.2.1, c.2.2, od, s⟩
      | some b =>
        if s < b.score then some ⟨c.1, c.2.1, c.2.2, od, s⟩ else some b

/-- The whole orientation loop: fold bestStep over the allowed
orientations. -/
def bestForBox (box : Box) (placed_boxes : List PlacedBox)
    (byId : String → Option Box) (usable_space : FreeSpace) (padding : ℚ)
    (strategy : Strategy) (bed : Bed) (total_margin : ℚ) :
    Option BestChoice :=
  (get_box_orientations box).foldl
    (bestStep box placed_boxes byId usable_space padding strategy bed
      total_margin)
    none

/-- The running state of the main loop of optimize_packing: the placement
list, the placed-box records, and the unplaced ids. -/
structure PackState where
  placements : List Placement
  placed : List PlacedBox
  unplaced : List String
deriving DecidableEq

/-- The PlacedBox record appended on commit (engine.py lines 601-607). -/
def mkPlacedBox (box : Box) (c : BestChoice) : PlacedBox :=
  { box := box,
    placement := ⟨box.id, c.x, c.y, c.z, c.od.orientation⟩,
    placed_length := c.od.length,
    placed_width := c.od.width,
    placed_height := c.od.height }

/-- One iteration of the main placement loop (engine.py lines 566-609). -/
def placeStep (byId : String → Option Box) (usable_space : FreeSpace)
    (padding : ℚ) (strategy : Strategy) (bed : Bed) (total_margin : ℚ)
    (st : PackState) (box : Box) : PackState :=
  match bestForBox box st.placed byId usable_space padding strategy bed
    total_margin with
  | some c =>
    { placements := st.placements ++ [⟨box.id, c.x, c.y, c.z, c.od.orientation⟩],
      placed := st.placed ++ [mkPlacedBox box c],
      unplaced := st.unplaced }
  | none => { st with unplaced := st.unplaced ++ [box.id] }

/-- Stable insertion of a box into a list sorted ascending by key: the new
element goes in front of the first element of strictly larger or equal...
see sortByScore below; equal keys keep the earlier element first. -/
def insertSorted (key : Box → ℚ) (a : Box) : List Box → List Box
  | [] => [a]
  | b :: bs => if key a ≤ key b then a :: b :: bs else b :: insertSorted key a bs

/-- The stable ascending sort sorted(boxes, key=...) of engine.py lines
560-563.  Insertion sort with the comparison above is stable and sorted by
the key, and a stable sort by a fixed key is unique, so this computes the
same list as the Python sort. -/
def sortByScore (key : Box → ℚ) (l : List Box) : List Box :=
  l.foldr (insertSorted key) []

/-- The dictionary boxes_by_id built at engine.py line 557.  Python dict
comprehension keeps the last binding of a duplicated key, hence the lookup
searches the reversed list. -/
def dictGet (boxes : List Box) (key : String) : Option Box :=
  boxes.reverse.find? fun b => decide (b.id = key)

/-- Rounding half to even at the integers, the tie-breaking rule of the
Python built-in round. -/
def roundHalfEven (q : ℚ) : ℤ :=
  if q - (⌊q⌋ : ℚ) < 1/2 then ⌊q⌋
  else if q - (⌊q⌋ : ℚ) > 1/2 then ⌊q⌋ + 1
  else if ⌊q⌋ % 2 = 0 then ⌊q⌋ else ⌊q⌋ + 1

/-- round(x, 4) from the metrics code: round half to even at the fourth
decimal. -/
def round4 (q : ℚ) : ℚ := (roundHalfEven (q * 10000) : ℚ) / 10000

/-- The metrics dictionary of _calculate_metrics.  The Python keys
used_volume_ratio and free_volume_ratio are spelled used_volume_frac and
free_volume_frac here. -/
structure Metrics where
  total_boxes : ℕ
  placed_boxes : ℕ
  used_volume_frac : ℚ
  free_volume_frac : ℚ
  fragmentation_score : ℚ
deriving DecidableEq

/-- The denominator clamp of _calculate_metrics (engine.py lines 626-628):
the usable volume is replaced by 1 only when it is not positive. -/
def clampedBedVolume (usable_length usable_width usable_height : ℚ) : ℚ :=
  if usable_length * usable_width * usable_height ≤ 0 then 1
  else usable_length * usable_width * usable_height

/-- The total placed volume (engine.py lines 631-634). -/
def usedVolume (placed_boxes : List PlacedBox) : ℚ :=
  (placed_boxes.map fun pb =>
    pb.placed_length * pb.placed_width * pb.placed_height).sum

/-- calculate_metrics from engine.py (lines 618-669); the leading
underscore of the Python name is dropped. -/
def calculate_metrics (boxes : List Box) (placed_boxes : List PlacedBox)
    (usable_length usable_width usable_height : ℚ) : Metrics :=
  let total_bed_volume := clampedBedVolume usable_length usable_width usable_height
  let used_volume := usedVolume placed_boxes
  let used_frac := min (used_volume / total_bed_volume) 1
  let free_frac := 1 - used_frac
  let fragmentation :=
    match placed_boxes with
    | [] => 1
    | pb :: rest =>
      let min_x := rest.foldl (fun m p => min m p.placement.x) pb.placement.x
      let max_x := rest.foldl (fun m p => max m p.x_end) pb.x_end
      let min_y := rest.foldl (fun m p => min m p.placement.y) pb.placement.y
      let max_y := rest.foldl (fun m p => max m p.y_end) pb.y_end
      let min_z := rest.foldl (fun m p => min m p.placement.z) pb.placement.z
      let max_z := rest.foldl (fun m p => max m p.z_end) pb.z_end
      let bounding := (max_x - min_x) * (max_y - min_y) * (max_z - min_z)
      if bounding > 0 then 1 - used_volume / bounding else 0
  { total_boxes := boxes.length,
    placed_boxes := placed_boxes.length,
    used_volume_frac := round4 used_frac,
    free_volume_frac := round4 free_frac,
    fragmentation_score := round4 fragmentation }

/-- The usable space computed at engine.py lines 536-554. -/
def usableFor (bed : Bed) (settings : Settings) : FreeSpace :=
  { x := bed.margin + settings.margin,
    y := bed.margin + settings.margin,
    z := 0,
    length := bed.length - 2 * (bed.margin + settings.margin),
    width := bed.width - 2 * (bed.margin + settings.margin),
    height := bed.height }

/-- The degenerate-region test of engine.py line 542. -/
def usableDegenerate (bed : Bed) (settings : Settings) : Bool :=
  decide (bed.length - 2 * (bed.margin + settings.margin) ≤ 0) ||
  decide (bed.width - 2 * (bed.margin + settings.margin) ≤ 0) ||
  decide (bed.height ≤ 0)

/-- The state reached by optimize_packing after the main loop (engine.py
lines 532-609): on a degenerate usable region the loop is skipped and
every box id is unplaced; otherwise the boxes are sorted by score and
placed one by one. -/
def packState (bed : Bed) (boxes : List Box) (settings : Settings) :
    PackState :=
  if usableDegenerate bed settings then
    ⟨[], [], boxes.map fun b => b.id⟩
  else
    (sortByScore (fun b => calculate_box_score b settings.accessibility_preference)
        boxes).foldl
      (placeStep (dictGet boxes) (usableFor bed settings) settings.padding
        settings.strategy bed (bed.margin + settings.margin))
      ⟨[], [], []⟩

/-- The result triple of optimize_packing. -/
structure PackResult where
  placements : List Placement
  unplaced_box_ids : List String
  metrics : Metrics
deriving DecidableEq

/-- optimize_packing from engine.py (lines 514-615). -/
def optimize_packing (bed : Bed) (boxes : List Box) (settings : Settings) :
    PackResult :=
  let st := packState bed boxes settings
  { placements := st.placements,
    unplaced_box_ids := st.unplaced,
    metrics := calculate_metrics boxes st.placed
      (bed.length - 2 * (bed.margin + settings.margin))
      (bed.width - 2 * (bed.margin + settings.margin))
      bed.height }

/-!  Specification-side definitions.  Each of the following states a
property in the words of the specification or of a claim, for comparison
with the engine definitions above. -/

/-- The in-bounds property a committed placed box inherits from the
bounds filter: the box lies inside the usable space on every axis. -/
def inBounds (usable_space : FreeSpace) (pb : PlacedBox) : Prop :=
  usable_space.x ≤ pb.placement.x ∧
  pb.placement.x + pb.placed_length ≤ usable_space.x_end ∧
  usable_space.y ≤ pb.placement.y ∧
  pb.placement.y + pb.placed_width ≤ usable_space.y_end ∧
  usable_space.z ≤ pb.placement.z ∧
  pb.placement.z + pb.placed_height ≤ usable_space.z_end

/-- The negation of the with-padding overlap predicate of spec section
4.2 for two placed boxes A and B: on some axis, A.end + p ≤ B.start or
B.end + p ≤ A.start. -/
def separated (padding : ℚ) (a b : PlacedBox) : Prop :=
  a.x_end + padding ≤ b.placement.x ∨ b.x_end + padding ≤ a.placement.x ∨
  a.y_end + padding ≤ b.placement.y ∨ b.y_end + padding ≤ a.placement.y ∨
  a.z_end + padding ≤ b.placement.z ∨ b.z_end + padding ≤ a.placement.z

/-- The claim C1 predicate, exactly as the claim states it: coordinates
nonnegative and the placed extent bounded by the usable dimensions
L - 2(m + m2), W - 2(m + m2), H. -/
def claimC1pred (bedL bedW bedH margins : ℚ) (pb : PlacedBox) : Bool :=
  decide (0 ≤ pb.placement.x) && decide (0 ≤ pb.placement.y) &&
  decide (0 ≤ pb.placement.z) &&
  decide (pb.placement.x + pb.placed_length ≤ bedL - 2 * margins) &&
  decide (pb.placement.y + pb.placed_width ≤ bedW - 2 * margins) &&
  decide (pb.placement.z + pb.placed_height ≤ bedH)

/-- The support condition actually enforced at commit time (spec section
4.3 stability rule, with the threshold the code uses): a box whose z is
more than 0.1 above the floor has support fraction at least one half,
computed against the boxes placed before it with the request padding. -/
def supportCommitOk (floor_z padding : ℚ) (prior : List PlacedBox)
    (pb : PlacedBox) : Bool :=
  !decide (pb.placement.z > floor_z + 1/10) ||
  decide (1/2 ≤ (get_support_at_position pb.placement.x pb.placement.y
    pb.placement.z pb.placed_length pb.placed_width prior floor_z padding).1)

/-- supportCommitOk checked along a commit history: each element is
checked against exactly the list of boxes committed before it. -/
def stackedSupportOk (floor_z padding : ℚ) :
    List PlacedBox → List PlacedBox → Bool
  | _, [] => true
  | prior, pb :: rest =>
    supportCommitOk floor_z padding prior pb &&
    stackedSupportOk floor_z padding (prior ++ [pb]) rest

/-- The claim C4 predicate as stated: every committed box strictly above
the floor (z > floor) has support fraction at least one half against the
boxes placed before it. -/
def claimSupportPred (floor_z padding : ℚ) :
    List PlacedBox → List PlacedBox → Bool
  | _, [] => true
  | prior, pb :: rest =>
    (!decide (pb.placement.z > floor_z) ||
      decide (1/2 ≤ (get_support_at_position pb.placement.x pb.placement.y
        pb.placement.z pb.placed_length pb.placed_width prior floor_z
        padding).1)) &&
    claimSupportPred floor_z padding (prior ++ [pb]) rest

/-- The adjacency predicate claim C5 states for the load check: the box
rests on the supporter iff the supporter top plus the current padding
meets the box bottom within 0.1 and the footprints overlap with positive
area. -/
def restsOnPerSpec (padding : ℚ) (support pb : PlacedBox) : Bool :=
  decide (qabs (support.z_end + padding - pb.placement.z) ≤ 1/10) &&
  decide (max pb.placement.x support.placement.x <
    min (pb.placement.x + pb.placed_length) support.x_end) &&
  decide (max pb.placement.y support.placement.y <
    min (pb.placement.y + pb.placed_width) support.y_end)

/-- Two orientation tuples do not coincide: their placed-dimension
triples do not agree componentwise within 0.001 (claim C9). -/
def noCoincide (o1 o2 : OrientedDims) : Prop :=
  dims_coincide (o1.length, o1.width, o1.height)
    (o2.length, o2.width, o2.height) = false

/-- The used-volume formula exactly as claim C7 states it: the usable
volume clipped from below to 1 by a max. -/
def claimC7usedFrac (v u : ℚ) : ℚ := round4 (min 1 (v / max u 1))

/-- The used-volume formula as the code computes it: the denominator is
replaced by 1 only when the usable volume is not positive. -/
def specUsedFrac (v u : ℚ) : ℚ :=
  round4 (min 1 (v / (if u ≤ 0 then 1 else u)))

/-- The free-volume formula: one minus the unrounded used fraction,
rounded the same way. -/
def specFreeFrac (v u : ℚ) : ℚ :=
  round4 (1 - min 1 (v / (if u ≤ 0 then 1 else u)))

/-- The id multiset of an engine state: ids of the committed placements
followed by the unplaced ids. -/
def stateIds (st : PackState) : List String :=
  (st.placements.map fun p => p.box_id) ++ st.unplaced

/-!  Concrete inputs used by counterexamples and witnesses. -/

/-- The identity orientation value. -/
def idOrient : Orientation := ⟨Axis.length, Axis.width, Axis.height⟩

/-- The bed of the smoke test test_optimize_packing_single_box_fits. -/
def bed_std : Bed := ⟨200, 150, 30, 5, 0⟩

/-- The default settings record (strategy maximize_volume, accessibility
one half, padding 1, margin 0). -/
def settings_std : Settings := ⟨Strategy.maximize_volume, 1/2, 1, 0⟩

/-- The box of the smoke test test_optimize_packing_single_box_fits. -/
def box_mid : Box := Box.make "box1" "Test Box" 50 40 20 5 Fragility.normal
  AccessFrequency.sometimes Priority.must_fit true true true none

/-- The placed-box record the engine commits for box_mid in bed_std. -/
def placed_mid : PlacedBox :=
  ⟨box_mid, ⟨"box1", 5, 5, 0, idOrient⟩, 50, 40, 20⟩

/-- A box that exactly fills the usable footprint of bed_std under
settings_std: usable 190 by 140, height 20 under clearance 30. -/
def box_wide : Box := Box.make "wide" "Wide Box" 190 140 20 1
  Fragility.robust AccessFrequency.rare Priority.must_fit true true true none

/-- The placed-box record the engine commits for box_wide in bed_std. -/
def placed_wide : PlacedBox :=
  ⟨box_wide, ⟨"wide", 5, 5, 0, idOrient⟩, 190, 140, 20⟩

/-- A 30 by 30 by 30 bed with no margins and no corner radius. -/
def bed_open : Bed := ⟨30, 30, 30, 0, 0⟩

/-- Settings with zero padding (strategy maximize_volume). -/
def settings_flush : Settings := ⟨Strategy.maximize_volume, 1/2, 0, 0⟩

/-- A thin heavy plate: 10 by 10 footprint, height one twentieth. -/
def box_thin : Box := Box.make "thin" "Thin" 10 10 (1/20) 20 Fragility.robust
  AccessFrequency.rare Priority.must_fit true true true none

/-- A light 20 cube. -/
def box_cube : Box := Box.make "cube" "Cube" 20 20 20 0 Fragility.robust
  AccessFrequency.rare Priority.must_fit true true true none

/-- The record committed for box_thin at the origin of bed_open. -/
def placed_thin : PlacedBox :=
  ⟨box_thin, ⟨"thin", 0, 0, 0, idOrient⟩, 10, 10, 1/20⟩

/-- The record committed for box_cube on top of box_thin, at z = 1/20
with footprint overlap one quarter of its base. -/
def placed_cube : PlacedBox :=
  ⟨box_cube, ⟨"cube", 0, 0, 1/20, idOrient⟩, 20, 20, 20⟩

/-- A unit bed of height one half with no margins. -/
def bed_half : Bed := ⟨1, 1, 1/2, 0, 0⟩

/-- A half-unit cube of weight zero. -/
def box_half : Box := Box.make "half" "Half Cube" (1/2) (1/2) (1/2) 0
  Fragility.robust AccessFrequency.rare Priority.must_fit true true true none

/-- The record committed for box_half at the origin of bed_half. -/
def placed_half : PlacedBox :=
  ⟨box_half, ⟨"half", 0, 0, 0, idOrient⟩, 1/2, 1/2, 1/2⟩

/-- A bed whose margin swallows the whole footprint: usable length and
width are 2 - 2 * 2 = -2. -/
def bed_pinched : Bed := ⟨2, 2, 5, 2, 0⟩

/-- A supporter box with declared load limit 12. -/
def box_sup : Box := Box.make "sup" "Support" 10 10 5 3 Fragility.robust
  AccessFrequency.rare Priority.must_fit true true true (some 12)

/-- A 10 kg box committed one fifth above the top of box_sup. -/
def box_rest : Box := Box.make "rest" "Rest" 10 10 5 10 Fragility.robust
  AccessFrequency.rare Priority.must_fit true true true none

/-- A 5 kg candidate box. -/
def box_cand : Box := Box.make "cand" "Candidate" 10 10 5 5 Fragility.robust
  AccessFrequency.rare Priority.must_fit true true true none

/-- box_sup placed at the origin; its top face is at z = 5. -/
def placed_sup : PlacedBox := ⟨box_sup, ⟨"sup", 0, 0, 0, idOrient⟩, 10, 10, 5⟩

/-- box_rest placed at z = 26/5 = 5.2, which is the supporter top plus a
padding of one fifth. -/
def placed_rest : PlacedBox :=
  ⟨box_rest, ⟨"rest", 0, 0, 26/5, idOrient⟩, 10, 10, 5⟩

/-- box_rest placed directly on the supporter top, at z = 5. -/
def placed_on : PlacedBox :=
  ⟨box_rest, ⟨"rest", 0, 0, 5, idOrient⟩, 10, 10, 5⟩

/-- A plain box used by the claim C10 witness. -/
def box_plain : Box := Box.make "plain" "Plain" 1 1 1 1 Fragility.normal
  AccessFrequency.sometimes Priority.optional true true true none

/-- box_plain placed at the origin. -/
def placed_plain : PlacedBox :=
  ⟨box_plain, ⟨"plain", 0, 0, 0, idOrient⟩, 1, 1, 1⟩

/-!  General helper lemmas. -/

theorem qabs_eq_abs (q : ℚ) : qabs q = |q| := by
  by_cases h : q < 0
  · simp [qabs, h, abs_of_neg h]
  · simp [qabs, h, abs_of_nonneg (le_of_not_lt h)]

theorem dims_coincide_symm (a b : ℚ × ℚ × ℚ) :
    dims_coincide a b = dims_coincide b a := by
  unfold dims_coincide
  rw [qabs_eq_abs, qabs_eq_abs, qabs_eq_abs, qabs_eq_abs, qabs_eq_abs,
    qabs_eq_abs, abs_sub_comm a.1, abs_sub_comm a.2.1, abs_sub_comm a.2.2]

theorem foldl_minBy_mem (xs : List ((ℚ × ℚ × ℚ) × ℚ)) :
    ∀ x, xs.foldl (fun best c => if c.2 < best.2 then c else best) x ∈ x :: xs := by
  induction xs with
  | nil => intro x; simp
  | cons y ys ih =>
    intro x
    simp only [List.foldl_cons]
    by_cases hc : y.2 < x.2
    · rw [if_pos hc]
      rcases List.mem_cons.mp (ih y) with h | h
      · rw [h]; simp
      · simp [h]
    · rw [if_neg hc]
      rcases List.mem_cons.mp (ih x) with h | h
      · rw [h]; simp
      · simp [h]

theorem selectBest_mem (l : List ((ℚ × ℚ × ℚ) × ℚ)) (p : ℚ × ℚ × ℚ)
    (h : selectBest l = some p) : ∃ s, (p, s) ∈ l := by
  cases l with
  | nil => simp [selectBest] at h
  | cons x xs =>
    simp only [selectBest, Option.some.injEq] at h
    refine ⟨(xs.foldl (fun best c => if c.2 < best.2 then c else best) x).2, ?_⟩
    have hm := foldl_minBy_mem xs x
    rw [← h]
    simpa using hm

theorem find_placement_position_valid {box : Box} {od : OrientedDims}
    {placed : List PlacedBox} {byId : String → Option Box}
    {usable : FreeSpace} {padding : ℚ} {strategy : Strategy} {bed : Bed}
    {tm : ℚ} {p : ℚ × ℚ × ℚ}
    (h : find_placement_position box od placed byId usable padding strategy
      bed tm = some p) :
    candidateValid box od placed byId usable padding bed tm p = true := by
  simp only [find_placement_position] at h
  obtain ⟨s, hs⟩ := selectBest_mem _ p h
  obtain ⟨c, hc, hcp⟩ := List.mem_map.mp hs
  have hc2 := (Prod.mk.injEq _ _ _ _).mp hcp
  rw [← hc2.1]
  exact (List.mem_filter.mp hc).2

theorem bestStep_valid {box : Box} {placed : List PlacedBox}
    {byId : String → Option Box} {usable : FreeSpace} {padding : ℚ}
    {strategy : Strategy} {bed : Bed} {tm : ℚ}
    {acc : Option BestChoice} {od : OrientedDims}
    (hacc : ∀ b, acc = some b →
      candidateValid box b.od placed byId usable padding bed tm
        (b.x, b.y, b.z) = true)
    (b : BestChoice)
    (h : bestStep box placed byId usable padding strategy bed tm acc od =
      some b) :
    candidateValid box b.od placed byId usable padding bed tm
      (b.x, b.y, b.z) = true := by
  unfold bestStep at h
  split at h
  · exact hacc b h
  · cases hf : find_placement_position box od placed byId usable padding
      strategy bed tm with
    | none => rw [hf] at h; exact hacc b h
    | some c =>
      rw [hf] at h
      have hv := find_placement_position_valid hf
      cases acc with
      | none =>
        simp only [Option.some.injEq] at h
        rw [← h]
        simpa using hv
      | some b2 =>
        simp only at h
        split at h
        · simp only [Option.some.injEq] at h
          rw [← h]
          simpa using hv
        · exact hacc b h

theorem bestForBox_valid {box : Box} {placed : List PlacedBox}
    {byId : String → Option Box} {usable : FreeSpace} {padding : ℚ}
    {strategy : Strategy} {bed : Bed} {tm : ℚ} {c : BestChoice}
    (h : bestForBox box placed byId usable padding strategy bed tm = some c) :
    candidateValid box c.od placed byId usable padding bed tm
      (c.x, c.y, c.z) = true := by
  unfold bestForBox at h
  have aux : ∀ (ods : List OrientedDims) (acc : Option BestChoice),
      (∀ b, acc = some b →
        candidateValid box b.od placed byId usable padding bed tm
          (b.x, b.y, b.z) = true) →
      ∀ b, ods.foldl (bestStep box placed byId usable padding strategy bed tm)
        acc = some b →
      candidateValid box b.od placed byId usable padding bed tm
        (b.x, b.y, b.z) = true := by
    intro ods
    induction ods with
    | nil => intro acc hacc b hb; exact hacc b hb
    | cons od rest ih =>
      intro acc hacc b hb
      simp only [List.foldl_cons] at hb
      exact ih _ (fun b2 hb2 => bestStep_valid hacc b2 hb2) b hb
  exact aux _ none (by simp) c h

theorem candidateValid_parts {box : Box} {od : OrientedDims}
    {placed : List PlacedBox} {byId : String → Option Box}
    {usable : FreeSpace} {padding : ℚ} {bed : Bed} {tm : ℚ}
    {p : ℚ × ℚ × ℚ}
    (h : candidateValid box od placed byId usable padding bed tm p = true) :
    boundsOk usable od.length od.width od.height p = true ∧
    collisionFree padding od.length od.width od.height p placed = true ∧
    supportOk usable padding placed od p = true := by
  simp only [candidateValid, Bool.and_eq_true] at h
  tauto

theorem boundsOk_props {usable : FreeSpace} {l w h : ℚ} {p : ℚ × ℚ × ℚ}
    (hb : boundsOk usable l w h p = true) :
    usable.x ≤ p.1 ∧ p.1 + l ≤ usable.x_end ∧
    usable.y ≤ p.2.1 ∧ p.2.1 + w ≤ usable.y_end ∧
    usable.z ≤ p.2.2 ∧ p.2.2 + h ≤ usable.z_end := by
  simp only [boundsOk, Bool.and_eq_true, Bool.not_eq_true',
    decide_eq_false_iff_not, not_lt] at hb
  tauto

theorem placeStep_cases (byId : String → Option Box) (usable : FreeSpace)
    (padding : ℚ) (strategy : Strategy) (bed : Bed) (tm : ℚ)
    (st : PackState) (box : Box) :
    (∃ c, bestForBox box st.placed byId usable padding strategy bed tm =
        some c ∧
      placeStep byId usable padding strategy bed tm st box =
        ⟨st.placements ++ [⟨box.id, c.x, c.y, c.z, c.od.orientation⟩],
         st.placed ++ [mkPlacedBox box c], st.unplaced⟩) ∨
    (bestForBox box st.placed byId usable padding strategy bed tm = none ∧
      placeStep byId usable padding strategy bed tm st box =
        ⟨st.placements, st.placed, st.unplaced ++ [box.id]⟩) := by
  unfold placeStep
  cases hbest : bestForBox box st.placed byId usable padding strategy bed tm
  · right; exact ⟨rfl, rfl⟩
  · left; exact ⟨_, rfl, rfl⟩

theorem boundsOk_inBounds {usable : FreeSpace} {box : Box} {c : BestChoice}
    (h : boundsOk usable c.od.length c.od.width c.od.height
      (c.x, c.y, c.z) = true) :
    inBounds usable (mkPlacedBox box c) := by
  obtain ⟨h1, h2, h3, h4, h5, h6⟩ := boundsOk_props h
  exact ⟨h1, h2, h3, h4, h5, h6⟩

theorem sepFrom_separated {padding : ℚ} {box : Box} {c : BestChoice}
    {pb : PlacedBox}
    (h : sepFrom padding c.od.length c.od.width c.od.height (c.x, c.y, c.z)
      pb = true) :
    separated padding pb (mkPlacedBox box c) := by
  simp only [sepFrom, PlacedBox.x_end, PlacedBox.y_end, PlacedBox.z_end,
    Bool.or_eq_true, decide_eq_true_eq] at h
  simp only [separated, mkPlacedBox, PlacedBox.x_end, PlacedBox.y_end,
    PlacedBox.z_end]
  rcases h with ((((h|h)|h)|h)|h)|h
  · exact Or.inr (Or.inl (by linarith))
  · exact Or.inl (by linarith)
  · exact Or.inr (Or.inr (Or.inr (Or.inl (by linarith))))
  · exact Or.inr (Or.inr (Or.inl (by linarith)))
  · exact Or.inr (Or.inr (Or.inr (Or.inr (Or.inr (by linarith)))))
  · exact Or.inr (Or.inr (Or.inr (Or.inr (Or.inl (by linarith)))))

theorem supportOk_commit {usable : FreeSpace} {padding : ℚ}
    {placed : List PlacedBox} {box : Box} {c : BestChoice}
    (h : supportOk usable padding placed c.od (c.x, c.y, c.z) = true) :
    supportCommitOk usable.z padding placed (mkPlacedBox box c) = true := by
  simp only [supportOk, Bool.not_eq_true', Bool.and_eq_false_iff,
    decide_eq_false_iff_not, not_lt] at h
  simp only [supportCommitOk, mkPlacedBox, Bool.or_eq_true,
    Bool.not_eq_true', decide_eq_false_iff_not, not_lt, decide_eq_true_eq]
  exact h

theorem stackedSupportOk_append (f p : ℚ) (l : List PlacedBox) :
    ∀ (prior : List PlacedBox) (x : PlacedBox),
    stackedSupportOk f p prior (l ++ [x]) =
      (stackedSupportOk f p prior l &&
        supportCommitOk f p (prior ++ l) x) := by
  induction l with
  | nil => intro prior x; simp [stackedSupportOk]
  | cons y ys ih =>
    intro prior x
    simp only [List.cons_append, stackedSupportOk, List.append_eq]
    rw [ih, List.append_assoc, List.singleton_append, Bool.and_assoc]

theorem foldl_placeStep_inBounds (byId : String → Option Box)
    (usable : FreeSpace) (padding : ℚ) (strategy : Strategy) (bed : Bed)
    (tm : ℚ) (l : List Box) :
    ∀ (st : PackState), (∀ pb ∈ st.placed, inBounds usable pb) →
    ∀ pb ∈ (l.foldl (placeStep byId usable padding strategy bed tm)
      st).placed, inBounds usable pb := by
  induction l with
  | nil => intro st h; simpa using h
  | cons b bs ih =>
    intro st h
    simp only [List.foldl_cons]
    apply ih
    rcases placeStep_cases byId usable padding strategy bed tm st b with
      ⟨c, hbest, heq⟩ | ⟨hbest, heq⟩
    · rw [heq]
      intro pb hm
      rcases List.mem_append.mp hm with h1 | h1
      · exact h pb h1
      · rw [List.mem_singleton.mp h1]
        exact boundsOk_inBounds (candidateValid_parts (bestForBox_valid hbest)).1
    · rw [heq]
      exact h

theorem foldl_placeStep_separated (byId : String → Option Box)
    (usable : FreeSpace) (padding : ℚ) (strategy : Strategy) (bed : Bed)
    (tm : ℚ) (l : List Box) :
    ∀ (st : PackState), List.Pairwise (separated padding) st.placed →
    List.Pairwise (separated padding)
      ((l.foldl (placeStep byId usable padding strategy bed tm) st).placed) := by
  induction l with
  | nil => intro st h; simpa using h
  | cons b bs ih =>
    intro st h
    simp only [List.foldl_cons]
    apply ih
    rcases placeStep_cases byId usable padding strategy bed tm st b with
      ⟨c, hbest, heq⟩ | ⟨hbest, heq⟩
    · rw [heq]
      rw [List.pairwise_append]
      refine ⟨h, List.pairwise_singleton _ _, ?_⟩
      intro a ha b2 hb2
      rw [List.mem_singleton.mp hb2]
      have hcoll := (candidateValid_parts (bestForBox_valid hbest)).2.1
      exact sepFrom_separated
        (by simpa using (List.all_eq_true.mp hcoll) a ha)
    · rw [heq]
      exact h

theorem foldl_placeStep_support (byId : String → Option Box)
    (usable : FreeSpace) (padding : ℚ) (strategy : Strategy) (bed : Bed)
    (tm : ℚ) (l : List Box) :
    ∀ (st : PackState),
    stackedSupportOk usable.z padding [] st.placed = true →
    stackedSupportOk usable.z padding []
      ((l.foldl (placeStep byId usable padding strategy bed tm) st).placed) =
      true := by
  induction l with
  | nil => intro st h; simpa using h
  | cons b bs ih =>
    intro st h
    simp only [List.foldl_cons]
    apply ih
    rcases placeStep_cases byId usable padding strategy bed tm st b with
      ⟨c, hbest, heq⟩ | ⟨hbest, heq⟩
    · rw [heq]
      have hsup := (candidateValid_parts (bestForBox_valid hbest)).2.2
      simp only [stackedSupportOk_append, List.nil_append, Bool.and_eq_true]
      exact ⟨h, supportOk_commit hsup⟩
    · rw [heq]
      exact h

theorem insertSorted_perm (key : Box → ℚ) (a : Box) (l : List Box) :
    (insertSorted key a l).Perm (a :: l) := by
  induction l with
  | nil => simp [insertSorted]
  | cons b bs ih =>
    simp only [insertSorted]
    split
    · exact List.Perm.refl _
    · exact (ih.cons b).trans (List.Perm.swap a b bs)

theorem sortByScore_perm (key : Box → ℚ) (l : List Box) :
    (sortByScore key l).Perm l := by
  induction l with
  | nil => simp [sortByScore]
  | cons b bs ih =>
    simp only [sortByScore, List.foldr_cons]
    exact (insertSorted_perm key b _).trans (ih.cons b)

theorem placeStep_ids (byId : String → Option Box) (usable : FreeSpace)
    (padding : ℚ) (strategy : Strategy) (bed : Bed) (tm : ℚ)
    (st : PackState) (box : Box) :
    (stateIds (placeStep byId usable padding strategy bed tm st box)).Perm
      (stateIds st ++ [box.id]) := by
  rcases placeStep_cases byId usable padding strategy bed tm st box with
    ⟨c, hbest, heq⟩ | ⟨hbest, heq⟩
  · rw [heq]
    simp only [stateIds, List.map_append, List.map_cons, List.map_nil,
      List.append_assoc]
    exact List.Perm.append_left _ (List.perm_append_comm)
  · rw [heq]
    simp only [stateIds, List.append_assoc]
    exact List.Perm.refl _

theorem foldl_placeStep_ids (byId : String → Option Box)
    (usable : FreeSpace) (padding : ℚ) (strategy : Strategy) (bed : Bed)
    (tm : ℚ) (l : List Box) :
    ∀ (st : PackState),
    (stateIds (l.foldl (placeStep byId usable padding strategy bed tm)
      st)).Perm (stateIds st ++ l.map fun b => b.id) := by
  induction l with
  | nil => intro st; simp
  | cons b bs ih =>
    intro st
    simp only [List.foldl_cons, List.map_cons]
    refine ((ih _).trans ?_)
    refine (List.Perm.append_right _
      (placeStep_ids byId usable padding strategy bed tm st b)).trans ?_
    simp [List.append_assoc]

theorem packState_ids_perm (bed : Bed) (boxes : List Box) (stg : Settings) :
    (stateIds (packState bed boxes stg)).Perm (boxes.map fun b => b.id) := by
  unfold packState
  split
  · simp [stateIds]
  · refine (foldl_placeStep_ids _ _ _ _ _ _ _ _).trans ?_
    simp only [stateIds, List.map_nil, List.nil_append, List.append_nil]
    exact (sortByScore_perm _ boxes).map _

theorem orientationStep_preserves (b : Box) (acc : List OrientedDims)
    (p : Axis × Axis × Axis) (hne : acc ≠ [])
    (hpw : List.Pairwise noCoincide acc) :
    orientationStep b acc p ≠ [] ∧
    (orientationStep b acc p).head? = acc.head? ∧
    List.Pairwise noCoincide (orientationStep b acc p) := by
  simp only [orientationStep]
  by_cases hallow : orientation_allowed b p.1 p.2.1 p.2.2 = true
  · rw [if_pos hallow]
    by_cases hany : (acc.any fun o =>
        dims_coincide (b.dim p.1, b.dim p.2.1, b.dim p.2.2)
          (o.length, o.width, o.height)) = true
    · rw [if_pos hany]; exact ⟨hne, rfl, hpw⟩
    · rw [if_neg hany]
      have hall : ∀ o ∈ acc,
          dims_coincide (b.dim p.1, b.dim p.2.1, b.dim p.2.2)
            (o.length, o.width, o.height) = false := by
        intro o ho
        by_contra hcon
        exact hany (List.any_eq_true.mpr
          ⟨o, ho, by simpa using hcon⟩)
      refine ⟨by simp, ?_, ?_⟩
      · cases acc with
        | nil => exact absurd rfl hne
        | cons a as => rfl
      · rw [List.pairwise_append]
        refine ⟨hpw, List.pairwise_singleton _ _, ?_⟩
        intro o ho t ht
        rw [List.mem_singleton.mp ht]
        have h2 := hall o ho
        rw [dims_coincide_symm] at h2
        exact h2
  · rw [if_neg hallow]; exact ⟨hne, rfl, hpw⟩

theorem orientation_fold_props (b : Box) (ps : List (Axis × Axis × Axis)) :
    ∀ acc, acc ≠ [] → List.Pairwise noCoincide acc →
    ((ps.foldl (orientationStep b) acc) ≠ [] ∧
     (ps.foldl (orientationStep b) acc).head? = acc.head? ∧
     List.Pairwise noCoincide (ps.foldl (orientationStep b) acc)) := by
  induction ps with
  | nil => intro acc h1 h2; exact ⟨h1, rfl, h2⟩
  | cons p rest ih =>
    intro acc h1 h2
    simp only [List.foldl_cons]
    obtain ⟨k1, k2, k3⟩ := orientationStep_preserves b acc p h1 h2
    obtain ⟨m1, m2, m3⟩ := ih _ k1 k3
    exact ⟨m1, m2.trans k2, m3⟩

theorem orientationStep_identity (b : Box) :
    orientationStep b [] (Axis.length, Axis.width, Axis.height) =
      [⟨b.length, b.width, b.height,
        ⟨Axis.length, Axis.width, Axis.height⟩⟩] := by
  simp [orientationStep, orientation_allowed, Box.dim]

theorem round4_zero : round4 0 = 0 := by
  norm_num [round4, roundHalfEven]

theorem round4_one : round4 1 = 1 := by
  norm_num [round4, roundHalfEven]

/-!  Evaluations of the engine on the concrete inputs. -/

set_option maxRecDepth 8000

theorem eval_std :
    packState bed_std [box_mid] settings_std =
      ⟨[⟨"box1", 5, 5, 0, idOrient⟩], [placed_mid], []⟩ := by
  norm_num [packState, usableDegenerate, usableFor, sortByScore, insertSorted,
    calculate_box_score, placeStep, bestForBox, bestStep, get_box_orientations,
    dimension_permutations, orientationStep, orientation_allowed, Box.dim,
    dims_coincide, qabs, find_placement_position, candidatesFor, candidateValid,
    boundsOk, box_intersects_corner, collisionFree, sepFrom, supportOk,
    supportersAt, get_support_at_position, check_load_constraint,
    check_fragility_constraint, currentLoadOn, restsOnPerCode, boxWeightById,
    positionScore, selectBest, dictGet, List.filter, List.find?, Box.make,
    mkPlacedBox, FreeSpace.x_end, FreeSpace.y_end, FreeSpace.z_end,
    PlacedBox.x_end, PlacedBox.y_end, PlacedBox.z_end, box_mid, bed_std,
    settings_std, fragilityDefaultLoad, idOrient, placed_mid]

theorem eval_wide :
    packState bed_std [box_wide] settings_std =
      ⟨[⟨"wide", 5, 5, 0, idOrient⟩], [placed_wide], []⟩ := by
  norm_num [packState, usableDegenerate, usableFor, sortByScore, insertSorted,
    calculate_box_score, placeStep, bestForBox, bestStep, get_box_orientations,
    dimension_permutations, orientationStep, orientation_allowed, Box.dim,
    dims_coincide, qabs, find_placement_position, candidatesFor, candidateValid,
    boundsOk, box_intersects_corner, collisionFree, sepFrom, supportOk,
    supportersAt, get_support_at_position, check_load_constraint,
    check_fragility_constraint, currentLoadOn, restsOnPerCode, boxWeightById,
    positionScore, selectBest, dictGet, List.filter, List.find?, Box.make,
    mkPlacedBox, FreeSpace.x_end, FreeSpace.y_end, FreeSpace.z_end,
    PlacedBox.x_end, PlacedBox.y_end, PlacedBox.z_end, box_wide, bed_std,
    settings_std, fragilityDefaultLoad, idOrient, placed_wide]

theorem eval_half :
    packState bed_half [box_half] settings_flush =
      ⟨[⟨"half", 0, 0, 0, idOrient⟩], [placed_half], []⟩ := by
  norm_num [packState, usableDegenerate, usableFor, sortByScore, insertSorted,
    calculate_box_score, placeStep, bestForBox, bestStep, get_box_orientations,
    dimension_permutations, orientationStep, orientation_allowed, Box.dim,
    dims_coincide, qabs, find_placement_position, candidatesFor, candidateValid,
    boundsOk, box_intersects_corner, collisionFree, sepFrom, supportOk,
    supportersAt, get_support_at_position, check_load_constraint,
    check_fragility_constraint, currentLoadOn, restsOnPerCode, boxWeightById,
    positionScore, selectBest, dictGet, List.filter, List.find?, Box.make,
    mkPlacedBox, FreeSpace.x_end, FreeSpace.y_end, FreeSpace.z_end,
    PlacedBox.x_end, PlacedBox.y_end, PlacedBox.z_end, box_half, bed_half,
    settings_flush, fragilityDefaultLoad, idOrient, placed_half]

theorem sort_thin_cube :
    sortByScore (fun b => calculate_box_score b (1/2)) [box_thin, box_cube] =
      [box_thin, box_cube] := by
  norm_num [sortByScore, insertSorted, calculate_box_score, box_thin,
    box_cube, Box.make]

theorem step_thin :
    placeStep (dictGet [box_thin, box_cube]) (usableFor bed_open settings_flush)
      0 Strategy.maximize_volume bed_open 0 ⟨[], [], []⟩ box_thin =
    ⟨[⟨"thin", 0, 0, 0, idOrient⟩], [placed_thin], []⟩ := by
  norm_num [placeStep, bestForBox, bestStep, get_box_orientations,
    dimension_permutations, orientationStep, orientation_allowed, Box.dim,
    dims_coincide, qabs, find_placement_position, candidatesFor, candidateValid,
    boundsOk, box_intersects_corner, collisionFree, sepFrom, supportOk,
    supportersAt, get_support_at_position, check_load_constraint,
    check_fragility_constraint, currentLoadOn, restsOnPerCode, boxWeightById,
    positionScore, selectBest, dictGet, List.filter, List.find?, Box.make,
    mkPlacedBox, usableFor, FreeSpace.x_end, FreeSpace.y_end, FreeSpace.z_end,
    PlacedBox.x_end, PlacedBox.y_end, PlacedBox.z_end, box_thin, box_cube,
    bed_open, settings_flush, fragilityDefaultLoad, idOrient, placed_thin]

theorem step_cube :
    placeStep (dictGet [box_thin, box_cube]) (usableFor bed_open settings_flush)
      0 Strategy.maximize_volume bed_open 0
      ⟨[⟨"thin", 0, 0, 0, idOrient⟩], [placed_thin], []⟩ box_cube =
    ⟨[⟨"thin", 0, 0, 0, idOrient⟩, ⟨"cube", 0, 0, 1/20, idOrient⟩],
     [placed_thin, placed_cube], []⟩ := by
  norm_num [placeStep, bestForBox, bestStep, get_box_orientations,
    dimension_permutations, orientationStep, orientation_allowed, Box.dim,
    dims_coincide, qabs, find_placement_position, candidatesFor, candidateValid,
    boundsOk, box_intersects_corner, collisionFree, sepFrom, supportOk,
    supportersAt, get_support_at_position, check_load_constraint,
    check_fragility_constraint, currentLoadOn, restsOnPerCode, boxWeightById,
    positionScore, selectBest, dictGet, List.filter, List.find?, Box.make,
    mkPlacedBox, usableFor, FreeSpace.x_end, FreeSpace.y_end, FreeSpace.z_end,
    PlacedBox.x_end, PlacedBox.y_end, PlacedBox.z_end, box_thin, box_cube,
    bed_open, settings_flush, fragilityDefaultLoad, idOrient, placed_thin,
    placed_cube, show ("cube" : String) ≠ "thin" by decide,
    show ("thin" : String) ≠ "cube" by decide]

theorem eval_thin_cube :
    packState bed_open [box_thin, box_cube] settings_flush =
      ⟨[⟨"thin", 0, 0, 0, idOrient⟩, ⟨"cube", 0, 0, 1/20, idOrient⟩],
       [placed_thin, placed_cube], []⟩ := by
  have h0 : usableDegenerate bed_open settings_flush = false := by
    norm_num [usableDegenerate, bed_open, settings_flush]
  rw [packState, h0]
  simp only [Bool.false_eq_true, if_false]
  have hs : settings_flush.accessibility_preference = 1/2 := rfl
  have hp : settings_flush.padding = 0 := rfl
  have hst : settings_flush.strategy = Strategy.maximize_volume := rfl
  have hm : bed_open.margin + settings_flush.margin = 0 := by
    norm_num [bed_open, settings_flush]
  rw [hs, hp, hst, hm, sort_thin_cube]
  rw [List.foldl_cons, step_thin, List.foldl_cons, step_cube, List.foldl_nil]

/-!  Claim theorems. -/

/-- Claim C1, counterexample: on bed 200 by 150 by 30 with margin 5 and a
190 by 140 by 20 must-fit box, the engine commits the box at x = y = 5 in
bed coordinates, so x + placed length = 195 exceeds the bound
L - 2(m + m2) = 190 the claim asserts; the claimed invariant is false. -/
theorem claim1_counterexample :
    ((packState bed_std [box_wide] settings_std).placed.all
      (claimC1pred bed_std.length bed_std.width bed_std.height
        (bed_std.margin + settings_std.margin))) = false := by
  rw [eval_wide]
  norm_num [claimC1pred, placed_wide, bed_std, settings_std]

/-- Claim C1, amended: placements live in the usable region expressed in
bed coordinates: m + m2 ≤ x, x + placed length ≤ L - (m + m2), likewise
for y, and 0 ≤ z, z + placed height ≤ H; the claimed lower bounds 0 ≤ x,
y, z hold since the margins are nonnegative. -/
theorem claim1_within_usable (bed : Bed) (boxes : List Box) (stg : Settings)
    (hm : 0 ≤ bed.margin + stg.margin) :
    ∀ pb ∈ (packState bed boxes stg).placed,
      0 ≤ pb.placement.x ∧ 0 ≤ pb.placement.y ∧ 0 ≤ pb.placement.z ∧
      bed.margin + stg.margin ≤ pb.placement.x ∧
      bed.margin + stg.margin ≤ pb.placement.y ∧
      pb.placement.x + pb.placed_length ≤
        bed.length - (bed.margin + stg.margin) ∧
      pb.placement.y + pb.placed_width ≤
        bed.width - (bed.margin + stg.margin) ∧
      pb.placement.z + pb.placed_height ≤ bed.height := by
  intro pb hpb
  have hall : ∀ pb2 ∈ (packState bed boxes stg).placed,
      inBounds (usableFor bed stg) pb2 := by
    unfold packState
    split
    · intro pb2 h2; simp at h2
    · exact foldl_placeStep_inBounds _ _ _ _ _ _ _ ⟨[], [], []⟩ (by simp)
  obtain ⟨h1, h2, h3, h4, h5, h6⟩ := hall pb hpb
  simp only [usableFor, FreeSpace.x_end, FreeSpace.y_end, FreeSpace.z_end]
    at h1 h2 h3 h4 h5 h6
  exact ⟨by linarith, by linarith, by linarith, h1, h3, by linarith,
    by linarith, by linarith⟩

/-- Witness for the amended claim C1: the single-box smoke-test input,
whose committed placement is placed_mid. -/
theorem claim1_within_usable_witness :
    0 ≤ bed_std.margin + settings_std.margin ∧
    (0 ≤ placed_mid.placement.x ∧ 0 ≤ placed_mid.placement.y ∧
     0 ≤ placed_mid.placement.z ∧
     bed_std.margin + settings_std.margin ≤ placed_mid.placement.x ∧
     bed_std.margin + settings_std.margin ≤ placed_mid.placement.y ∧
     placed_mid.placement.x + placed_mid.placed_length ≤
       bed_std.length - (bed_std.margin + settings_std.margin) ∧
     placed_mid.placement.y + placed_mid.placed_width ≤
       bed_std.width - (bed_std.margin + settings_std.margin) ∧
     placed_mid.placement.z + placed_mid.placed_height ≤ bed_std.height) :=
  ⟨by norm_num [bed_std, settings_std],
   claim1_within_usable bed_std [box_mid] settings_std
     (by norm_num [bed_std, settings_std]) placed_mid
     (by rw [eval_std]; exact List.mem_singleton_self _)⟩

/-- Claim C2: for unique input ids, the placement ids together with the
unplaced ids are a permutation of the input ids and neither list repeats
an id: every box is committed exactly once or unplaced exactly once. -/
theorem claim2_id_partition (bed : Bed) (boxes : List Box) (stg : Settings)
    (h : (boxes.map fun b => b.id).Nodup) :
    (((optimize_packing bed boxes stg).placements.map fun p => p.box_id) ++
      (optimize_packing bed boxes stg).unplaced_box_ids).Perm
        (boxes.map fun b => b.id) ∧
    ((optimize_packing bed boxes stg).placements.map
      fun p => p.box_id).Nodup ∧
    (optimize_packing bed boxes stg).unplaced_box_ids.Nodup := by
  have hperm := packState_ids_perm bed boxes stg
  have hnd : (stateIds (packState bed boxes stg)).Nodup :=
    (hperm.nodup_iff).mpr h
  have hX : stateIds (packState bed boxes stg) =
      ((optimize_packing bed boxes stg).placements.map fun p => p.box_id) ++
        (optimize_packing bed boxes stg).unplaced_box_ids := rfl
  rw [hX] at hperm hnd
  exact ⟨hperm, hnd.of_append_left, hnd.of_append_right⟩

/-- Witness for claim C2: the two-box scenario on bed_open has unique ids
and the conclusion holds there. -/
theorem claim2_id_partition_witness :
    ([box_thin, box_cube].map fun b => b.id).Nodup ∧
    ((((optimize_packing bed_open [box_thin, box_cube]
        settings_flush).placements.map fun p => p.box_id) ++
      (optimize_packing bed_open [box_thin, box_cube]
        settings_flush).unplaced_box_ids).Perm
        ([box_thin, box_cube].map fun b => b.id)) := by
  have hnd : ([box_thin, box_cube].map fun b => b.id).Nodup := by
    simp [box_thin, box_cube, Box.make]
  exact ⟨hnd,
    (claim2_id_partition bed_open [box_thin, box_cube] settings_flush hnd).1⟩

/-- Claim C3: the committed placed boxes are pairwise separated with the
request padding: for every pair, on some axis one ends (plus padding)
before the other starts, i.e. the with-padding overlap predicate of spec
section 4.2 is false; the invariant is preserved by every commit of the
main loop because every commit passes the collision filter. -/
theorem claim3_pairwise_separation (bed : Bed) (boxes : List Box)
    (stg : Settings) :
    List.Pairwise (separated stg.padding) (packState bed boxes stg).placed := by
  unfold packState
  split
  · simp
  · exact foldl_placeStep_separated _ _ _ _ _ _ _ ⟨[], [], []⟩ (by simp)

/-- Claim C4, counterexample: a thin plate of height 0.05 placed on the
floor and then a 20 cube committed on its top at z = 0.05 with support
fraction 1/4: the claimed property (every placement with z strictly above
the floor has support at least one half) is false, because the code only
checks support for z above floor + 0.1. -/
theorem claim4_counterexample :
    claimSupportPred 0 0 []
      (packState bed_open [box_thin, box_cube] settings_flush).placed =
      false := by
  rw [eval_thin_cube]
  norm_num [claimSupportPred, get_support_at_position, qabs, placed_thin,
    placed_cube, PlacedBox.x_end, PlacedBox.y_end, PlacedBox.z_end]

/-- Claim C4, amended: every committed box whose z exceeds the floor by
more than the 0.1 tolerance had support fraction at least one half at the
moment it was committed, computed against exactly the boxes placed before
it with the request padding. -/
theorem claim4_support_above_tolerance (bed : Bed) (boxes : List Box)
    (stg : Settings) :
    stackedSupportOk 0 stg.padding []
      (packState bed boxes stg).placed = true := by
  unfold packState
  split
  · simp [stackedSupportOk]
  · exact foldl_placeStep_support (dictGet boxes) (usableFor bed stg)
      stg.padding stg.strategy bed (bed.margin + stg.margin) _
      ⟨[], [], []⟩ (by simp [stackedSupportOk])

/-- Claim C5, counterexample: with padding 1/5, a 10 kg box committed at
z = supporter top + padding rests on the supporter by the claimed
predicate, but the load loop of check_load_constraint, which calls
get_support_at_position without the padding argument (default 0), does
not count it: the 5 kg candidate passes although 10 + 5 exceeds the
declared limit 12. -/
theorem claim5_counterexample :
    restsOnPerSpec (1/5) placed_sup placed_rest = true ∧
    restsOnPerCode placed_sup placed_rest = false ∧
    check_load_constraint box_cand [placed_sup] [placed_sup, placed_rest]
      (dictGet [box_sup, box_rest, box_cand]) = true ∧
    box_rest.weight + box_cand.weight > 12 := by
  refine ⟨?_, ?_, ?_, ?_⟩ <;>
    norm_num [restsOnPerSpec, restsOnPerCode, check_load_constraint,
      currentLoadOn, boxWeightById, get_support_at_position, qabs, dictGet,
      List.find?, placed_sup, placed_rest, box_sup, box_rest, box_cand,
      Box.make, PlacedBox.x_end, PlacedBox.y_end, PlacedBox.z_end,
      fragilityDefaultLoad,
      show ("cand" : String) ≠ "sup" by decide,
      show ("rest" : String) ≠ "sup" by decide]

/-- restsOnPerCode unfolded to a flat Boolean combination of its guards:
the z-window test, the two early-exit guards of get_support_at_position,
the 0.1 tolerance, and the positive-area footprint overlap. -/
theorem restsOnPerCode_char (s pb : PlacedBox) :
    restsOnPerCode s pb =
      (decide (pb.placement.z > s.z_end - 1/10) &&
       !decide (pb.placement.z ≤ s.placement.z + 1/1000) &&
       !decide (pb.placed_length * pb.placed_width ≤ 0) &&
       !decide (qabs (s.z_end - pb.placement.z) > 1/10) &&
       decide (min (pb.placement.x + pb.placed_length) s.x_end >
           max pb.placement.x s.placement.x ∧
         min (pb.placement.y + pb.placed_width) s.y_end >
           max pb.placement.y s.placement.y)) := by
  unfold restsOnPerCode get_support_at_position
  simp only [add_zero]
  by_cases hA : pb.placement.z ≤ s.placement.z + 1/1000
  · rw [if_pos hA]
    simp only [decide_eq_true hA, List.isEmpty_nil, Bool.not_true,
      Bool.and_false, Bool.false_and]
  · rw [if_neg hA]
    by_cases hB : pb.placed_length * pb.placed_width ≤ 0
    · rw [if_pos hB]
      simp only [decide_eq_true hB, List.isEmpty_nil, Bool.not_true,
        Bool.and_false, Bool.false_and]
    · rw [if_neg hB]
      simp only [List.foldl_cons, List.foldl_nil]
      by_cases hC : qabs (s.z_end - pb.placement.z) > 1/10
      · rw [if_pos hC]
        simp only [decide_eq_true hC, List.isEmpty_nil, Bool.not_true,
          Bool.and_false, Bool.false_and]
      · rw [if_neg hC]
        by_cases hD : (min (pb.placement.x + pb.placed_length) s.x_end >
              max pb.placement.x s.placement.x ∧
            min (pb.placement.y + pb.placed_width) s.y_end >
              max pb.placement.y s.placement.y)
        · rw [if_pos hD]
          simp only [decide_eq_false hA, decide_eq_false hB,
            decide_eq_false hC, decide_eq_true hD, List.nil_append,
            List.isEmpty_cons, Bool.not_false, Bool.and_true]
        · rw [if_neg hD]
          simp only [decide_eq_false hD, List.isEmpty_nil, Bool.not_true,
            Bool.and_false]

/-- Claim C5, amended: the rest-on test of the load loop uses zero
padding, not the current padding: provided the supporter is taller than
0.101 cm and the resting z is not exactly at the 0.1 guard boundary, a
placed box is counted on the supporter iff the supporter top meets its
bottom within 0.1 with no padding and the footprints overlap with
positive area.  In particular a box at z = top + p is counted iff
p ≤ 0.1. -/
theorem claim5_zero_padding_adjacency (s pb : PlacedBox)
    (h1 : 101/1000 < s.placed_height)
    (h2 : pb.placement.z ≠ s.z_end - 1/10) :
    restsOnPerCode s pb = restsOnPerSpec 0 s pb := by
  have hze : s.z_end = s.placement.z + s.placed_height := rfl
  rw [restsOnPerCode_char]
  unfold restsOnPerSpec
  simp only [add_zero]
  by_cases hC : qabs (s.z_end - pb.placement.z) ≤ 1/10
  · by_cases hX : min (pb.placement.x + pb.placed_length) s.x_end >
        max pb.placement.x s.placement.x
    · by_cases hY : min (pb.placement.y + pb.placed_width) s.y_end >
          max pb.placement.y s.placement.y
      · have habs := abs_le.mp ((qabs_eq_abs _) ▸ hC)
        have hG : pb.placement.z > s.z_end - 1/10 := by
          rcases lt_or_eq_of_le
            (by linarith [habs.2] : s.z_end - 1/10 ≤ pb.placement.z)
            with hlt | heq
          · exact hlt
          · exact absurd heq.symm h2
        have hA : ¬ (pb.placement.z ≤ s.placement.z + 1/1000) := by
          rw [hze] at hG
          intro hcon
          linarith
        have hl : 0 < pb.placed_length := by
          have hx1 : pb.placement.x ≤ max pb.placement.x s.placement.x :=
            le_max_left _ _
          have hx2 : min (pb.placement.x + pb.placed_length) s.x_end ≤
              pb.placement.x + pb.placed_length := min_le_left _ _
          linarith
        have hw : 0 < pb.placed_width := by
          have hy1 : pb.placement.y ≤ max pb.placement.y s.placement.y :=
            le_max_left _ _
          have hy2 : min (pb.placement.y + pb.placed_width) s.y_end ≤
              pb.placement.y + pb.placed_width := min_le_left _ _
          linarith
        have hB : ¬ (pb.placed_length * pb.placed_width ≤ 0) :=
          not_le.mpr (mul_pos hl hw)
        simp only [decide_eq_true hG, decide_eq_false hA, decide_eq_false hB,
          decide_eq_false (not_lt.mpr hC), decide_eq_true (And.intro hX hY),
          decide_eq_true hC, decide_eq_true hX, decide_eq_true hY,
          Bool.not_false, Bool.and_true, Bool.true_and]
      · simp only [decide_eq_false (fun hcon => hY hcon.2 :
            ¬ (min (pb.placement.x + pb.placed_length) s.x_end >
                max pb.placement.x s.placement.x ∧
              min (pb.placement.y + pb.placed_width) s.y_end >
                max pb.placement.y s.placement.y)),
          decide_eq_false hY, Bool.and_false]
    · simp only [decide_eq_false (fun hcon => hX hcon.1 :
          ¬ (min (pb.placement.x + pb.placed_length) s.x_end >
              max pb.placement.x s.placement.x ∧
            min (pb.placement.y + pb.placed_width) s.y_end >
              max pb.placement.y s.placement.y)),
        decide_eq_false hX, Bool.and_false, Bool.false_and]
  · have hCpos : qabs (s.z_end - pb.placement.z) > 1/10 := not_le.mp hC
    simp only [decide_eq_true hCpos, decide_eq_false hC, Bool.not_true,
      Bool.and_false, Bool.false_and]

/-- Witness for the amended claim C5: a box sitting exactly on the
supporter top (z = 5) with full overlap, where both sides of the
equivalence are true. -/
theorem claim5_zero_padding_adjacency_witness :
    (101/1000 < placed_sup.placed_height ∧
      placed_on.placement.z ≠ placed_sup.z_end - 1/10) ∧
    restsOnPerCode placed_sup placed_on =
      restsOnPerSpec 0 placed_sup placed_on :=
  ⟨⟨by norm_num [placed_sup],
    by norm_num [placed_on, placed_sup, PlacedBox.z_end]⟩,
   claim5_zero_padding_adjacency placed_sup placed_on
     (by norm_num [placed_sup])
     (by norm_num [placed_on, placed_sup, PlacedBox.z_end])⟩

/-- Claim C6 (code bug): models.Bed declares no corner_radius attribute,
so the read bed.corner_radius at engine.py line 450 has no value — yet on
the smoke-test input the engine reaches that read: the origin candidate
of the first box passes the bounds filter, and the very next statement
evaluates bed.corner_radius (and routes.py line 46 even passes
corner_radius to the Bed constructor, a TypeError).  With the field
restored per the spec, the run commits the box as the test expects. -/
theorem claim6_corner_radius_attribute_missing :
    ModelsBed.getCornerRadius ⟨200, 150, 30, 5⟩ = none ∧
    boundsOk (usableFor bed_std settings_std) 50 40 20 (5, 5, 0) = true ∧
    (optimize_packing bed_std [box_mid] settings_std).placements =
      [⟨"box1", 5, 5, 0, idOrient⟩] := by
  refine ⟨rfl, ?_, ?_⟩
  · norm_num [boundsOk, usableFor, bed_std, settings_std, FreeSpace.x_end,
      FreeSpace.y_end, FreeSpace.z_end]
  · show (packState bed_std [box_mid] settings_std).placements = _
    rw [eval_std]

/-- Claim C7, counterexample: with usable volume 1/2 (strictly between 0
and 1) and one committed half-cube of volume 1/8, the engine reports
used fraction 1/4 = (1/8) / (1/2) — the denominator is NOT clipped to 1 —
while the formula of the claim, with U = max(usable, 1) = 1, gives 1/8. -/
theorem claim7_counterexample :
    (optimize_packing bed_half [box_half]
      settings_flush).metrics.used_volume_frac = 1/4 ∧
    usedVolume (packState bed_half [box_half] settings_flush).placed = 1/8 ∧
    ((bed_half.length - 2 * (bed_half.margin + settings_flush.margin)) *
      (bed_half.width - 2 * (bed_half.margin + settings_flush.margin)) *
      bed_half.height) = 1/2 ∧
    claimC7usedFrac (1/8) (1/2) = 1/8 ∧
    ((1/8 : ℚ) ≠ 1/4) := by
  refine ⟨?_, ?_, ?_, ?_, by norm_num⟩
  · simp only [optimize_packing]
    rw [eval_half]
    norm_num [calculate_metrics, clampedBedVolume, usedVolume, placed_half,
      round4, roundHalfEven, bed_half, settings_flush]
  · rw [eval_half]
    norm_num [usedVolume, placed_half]
  · norm_num [bed_half, settings_flush]
  · norm_num [claimC7usedFrac, round4, roundHalfEven]

/-- Claim C7, amended: the metrics follow the stated formulas with the
denominator the code actually uses: U equals the usable volume unless
that volume is not positive, in which case U = 1 — the clip does not
apply to usable volumes strictly between 0 and 1. -/
theorem claim7_metrics_code_clamp (bed : Bed) (boxes : List Box)
    (stg : Settings) :
    (optimize_packing bed boxes stg).metrics.used_volume_frac =
      specUsedFrac (usedVolume (packState bed boxes stg).placed)
        ((bed.length - 2 * (bed.margin + stg.margin)) *
          (bed.width - 2 * (bed.margin + stg.margin)) * bed.height) ∧
    (optimize_packing bed boxes stg).metrics.free_volume_frac =
      specFreeFrac (usedVolume (packState bed boxes stg).placed)
        ((bed.length - 2 * (bed.margin + stg.margin)) *
          (bed.width - 2 * (bed.margin + stg.margin)) * bed.height) := by
  constructor <;>
  · simp only [optimize_packing, calculate_metrics, specUsedFrac,
      specFreeFrac, clampedBedVolume]
    rw [min_comm]

/-- Claim C8, counterexample to the clamping clause: on the 2 by 2 by 5
bed with margin 2 both lateral usable dimensions are -2, so the claim's
degeneracy hypothesis holds, yet the denominator the engine feeds to the
metrics is the product (-2) * (-2) * 5 = 20, not the claimed clamped
U = 1: the replacement by 1 happens only when the usable-volume product
is nonpositive, and two negative factors make it positive. -/
theorem claim8_counterexample :
    (bed_pinched.length - 2 * (bed_pinched.margin + settings_std.margin) ≤
      0) ∧
    clampedBedVolume
      (bed_pinched.length - 2 * (bed_pinched.margin + settings_std.margin))
      (bed_pinched.width - 2 * (bed_pinched.margin + settings_std.margin))
      bed_pinched.height = 20 ∧ ((20 : ℚ) ≠ 1) := by
  refine ⟨?_, ?_, by norm_num⟩ <;>
    norm_num [clampedBedVolume, bed_pinched, settings_std]

/-- Claim C8, amended: when the usable region is zero or negative on some
axis, the engine returns no placements, reports every input id unplaced,
and the metrics come out as used fraction 0 and free fraction 1, without
raising (this path never touches the corner-radius attribute); the U = 1
clamp itself, however, fires only when the usable-volume product is
nonpositive — with two negative axes the true positive product is used
as the denominator, and the ratios are 0 and 1 only because no volume
was placed. -/
theorem claim8_degenerate_region (bed : Bed) (boxes : List Box)
    (stg : Settings)
    (h : bed.length - 2 * (bed.margin + stg.margin) ≤ 0 ∨
      bed.width - 2 * (bed.margin + stg.margin) ≤ 0 ∨ bed.height ≤ 0) :
    (optimize_packing bed boxes stg).placements = [] ∧
    (optimize_packing bed boxes stg).unplaced_box_ids =
      boxes.map (fun b => b.id) ∧
    (optimize_packing bed boxes stg).metrics.used_volume_frac = 0 ∧
    (optimize_packing bed boxes stg).metrics.free_volume_frac = 1 := by
  have hd : usableDegenerate bed stg = true := by
    simp only [usableDegenerate, Bool.or_eq_true, decide_eq_true_eq]
    tauto
  simp only [optimize_packing, packState, hd, if_true]
  refine ⟨by trivial, by trivial, ?_, ?_⟩
  · norm_num [calculate_metrics, usedVolume, round4_zero]
  · norm_num [calculate_metrics, usedVolume, round4_one]

/-- Witness for claim C8: a 2 by 2 bed with margin 2 leaves usable
length -2. -/
theorem claim8_degenerate_region_witness :
    (bed_pinched.length - 2 * (bed_pinched.margin + settings_std.margin) ≤ 0 ∨
      bed_pinched.width - 2 * (bed_pinched.margin + settings_std.margin) ≤ 0 ∨
      bed_pinched.height ≤ 0) ∧
    ((optimize_packing bed_pinched [box_mid] settings_std).placements = [] ∧
     (optimize_packing bed_pinched [box_mid] settings_std).unplaced_box_ids =
       [box_mid].map (fun b => b.id) ∧
     (optimize_packing bed_pinched [box_mid]
       settings_std).metrics.used_volume_frac = 0 ∧
     (optimize_packing bed_pinched [box_mid]
       settings_std).metrics.free_volume_frac = 1) :=
  ⟨by norm_num [bed_pinched, settings_std],
   claim8_degenerate_region bed_pinched [box_mid] settings_std
     (by norm_num [bed_pinched, settings_std])⟩

/-- Claim C9: for every box the orientation list is nonempty, its first
element is the identity orientation carrying the intrinsic dimensions,
and no two emitted tuples have placed-dimension triples agreeing
componentwise within 0.001. -/
theorem claim9_orientations (b : Box) :
    get_box_orientations b ≠ [] ∧
    (get_box_orientations b).head? =
      some ⟨b.length, b.width, b.height,
        ⟨Axis.length, Axis.width, Axis.height⟩⟩ ∧
    List.Pairwise noCoincide (get_box_orientations b) := by
  have h0 := orientationStep_identity b
  unfold get_box_orientations dimension_permutations
  rw [List.foldl_cons, h0]
  obtain ⟨m1, m2, m3⟩ := orientation_fold_props b _ _ (by simp)
    (List.pairwise_singleton _ _)
  exact ⟨m1, by rw [m2]; rfl, m3⟩

/-- Claim C10: Box construction always yields a present (non-None)
max_supported_load — an omitted value is replaced by the fragility
default — and for supporters drawn from such boxes the dictionary lookup
in check_load_constraint always returns a box with a present limit, so
the skip branch is unreachable and every load limit is enforced. -/
theorem claim10_load_limit_always_present :
    (∀ (id name : String) (length width height weight : ℚ)
       (fragility : Fragility) (af : AccessFrequency) (pr : Priority)
       (rx ry rz : Bool) (msl : Option ℚ),
       (Box.make id name length width height weight fragility af pr rx ry rz
         msl).max_supported_load.isSome = true) ∧
    (∀ (boxes : List Box) (s : PlacedBox),
       (∀ b ∈ boxes, b.max_supported_load.isSome = true) →
       s.box ∈ boxes →
       ((dictGet boxes s.box.id).map
         fun b => b.max_supported_load.isSome).getD false = true) := by
  constructor
  · intro id name l w hh wt f af pr rx ry rz msl
    cases msl <;> simp [Box.make]
  · intro boxes s hall hmem
    cases hfind : dictGet boxes s.box.id with
    | none =>
      exfalso
      have hsome : (boxes.reverse.find?
          fun b => decide (b.id = s.box.id)).isSome := by
        rw [List.find?_isSome]
        exact ⟨s.box, List.mem_reverse.mpr hmem, by simp⟩
      have hfind2 : (boxes.reverse.find?
          fun b => decide (b.id = s.box.id)) = none := hfind
      rw [hfind2] at hsome
      simp at hsome
    | some bfound =>
      have hfind2 : (boxes.reverse.find?
          fun b => decide (b.id = s.box.id)) = some bfound := hfind
      have hb : bfound ∈ boxes :=
        List.mem_reverse.mp (List.mem_of_find?_eq_some hfind2)
      simp [hall bfound hb]

/-- Witness for claim C10: a singleton box list whose box was built by
Box.make with no declared limit. -/
theorem claim10_load_limit_always_present_witness :
    (∀ b ∈ [box_plain], b.max_supported_load.isSome = true) ∧
    ((dictGet [box_plain] placed_plain.box.id).map
      fun b => b.max_supported_load.isSome).getD false = true := by
  have hall : ∀ b ∈ [box_plain], b.max_supported_load.isSome = true := by
    intro b hb
    rw [List.mem_singleton.mp hb]
    simp [box_plain, Box.make]
  exact ⟨hall, claim10_load_limit_always_present.2 [box_plain] placed_plain
    hall (by simp [placed_plain])⟩

end StackTics
